import Mathlib

/-!
Verification of the kosygin sprite rendering and animation engine.

The Rust source is shallowly embedded as follows:
* `f32`/`f64` values are modelled as exact rationals (`ℚ`) in the simulation
  code of `lib.rs` (which uses only field operations and the `f32` constant
  `PI`), and as real numbers (`ℝ`) where the code calls the transcendental
  functions `sin`/`cos` (`geom.rs` rotation, the loading pulse, the vertex
  builder of `renderer.rs`).  Rounding of individual float operations is
  idealised away; decimal literals denote their exact rational values.
* `PI : f32` (`core::f32::consts::PI`) is embedded as its exact rational
  value `13176795 / 4194304`.
* `u32`/`usize` quantities are `Nat`; the `u16` index arithmetic of
  `update_buffers` keeps its wrap-around as explicit `% 65536`
  (release-mode wrapping semantics).
* Fallible `Vec` indexing (`images[tex_index]`, `atlas.items[sprite.texture]`),
  which would panic out of bounds, is embedded with `getD`; the safety claim
  about texture indices shows the default branch is unreachable.
* The `crypto.get_random_values` source is a parameter: each `rand_range`
  call receives a triple of bytes (the fourth fetched byte is unused by the
  source and is omitted from the model).
-/

namespace Kosygin

/-- 2D point/vector from `geom.rs`, parametric in the scalar type. -/
structure Point (α : Type) where
  x : α
  y : α
deriving DecidableEq

/-- Componentwise addition, `impl ops::Add<Point> for Point`. -/
def Point.add {α : Type} [Add α] (p q : Point α) : Point α :=
  ⟨p.x + q.x, p.y + q.y⟩

/-- Componentwise subtraction, `impl ops::Sub<Point> for Point`. -/
def Point.sub {α : Type} [Sub α] (p q : Point α) : Point α :=
  ⟨p.x - q.x, p.y - q.y⟩

/-- Scalar multiplication, `impl ops::Mul<f32> for Point`. -/
def Point.smul {α : Type} [Mul α] (p : Point α) (v : α) : Point α :=
  ⟨p.x * v, p.y * v⟩

/-- `Point::rotate` from `geom.rs`: standard 2D rotation about the origin. -/
noncomputable def Point.rotate (p : Point ℝ) (angle : ℝ) : Point ℝ :=
  ⟨p.x * Real.cos angle - p.y * Real.sin angle,
   p.x * Real.sin angle + p.y * Real.cos angle⟩

/-- Euclidean magnitude of a vector, the measure used by the isometry claim. -/
noncomputable def Point.magnitude (p : Point ℝ) : ℝ :=
  Real.sqrt (p.x ^ 2 + p.y ^ 2)

/-- `TexAtlasItem` from `renderer.rs`: a sub-rectangle of the atlas. -/
structure TexAtlasItem where
  x : Nat
  y : Nat
  width : Nat
  height : Nat
deriving DecidableEq

/-- `TextureAtlas` from `renderer.rs` (the GPU texture object is not modelled). -/
structure TextureAtlas where
  items : List TexAtlasItem
  width : Nat
  height : Nat
deriving DecidableEq

/-- `Sprite` from `renderer.rs`, parametric in the scalar type. -/
structure Sprite (α : Type) where
  texture : Nat
  position : Point α
  pivot : Point α
  rotation : α
  width : α
  height : α
  alpha : α
deriving DecidableEq

/-- Loop body of `make_power_2` from `renderer.rs`: `p` starts at 1 and doubles
while `p < v`.  The loop runs at most `log2 v + 1` times; the embedding carries
`fuel = v` which is always sufficient since `v < 2 ^ v`, so the fueled function
agrees with the source loop. -/
def makePower2Go (fuel v p : Nat) : Nat :=
  match fuel with
  | 0 => p
  | f + 1 => if p < v then makePower2Go f v (2 * p) else p

/-- `make_power_2` from `renderer.rs`: the least power of two `≥ v` (and `≥ 1`). -/
def make_power_2 (v : Nat) : Nat :=
  makePower2Go v v 1

/-- Packing loop of `create_texture_with_images` / `create_texture_with_canvases`
from `renderer.rs`: walks the image list with running `total_width` and
`total_height` accumulators, placing image `i` at `x = total width so far`,
`y = 0`.  Input: the `(width, height)` pairs of the images, in order.
Returns the rect list together with the final accumulators. -/
def packGo : List (Nat × Nat) → Nat → Nat → List TexAtlasItem × Nat × Nat
  | [], totalWidth, totalHeight => ([], totalWidth, totalHeight)
  | (w, h) :: rest, totalWidth, totalHeight =>
    let totalHeight := if totalHeight < h then h else totalHeight
    let t : TexAtlasItem := ⟨totalWidth, 0, w, h⟩
    let r := packGo rest (totalWidth + w) totalHeight
    (t :: r.1, r.2)

/-- Pure core of `create_texture_with_images` from `renderer.rs`: pack the
images single-row and round both atlas dimensions up to powers of two. -/
def create_texture_with_images (images : List (Nat × Nat)) : TextureAtlas :=
  let r := packGo images 0 0
  ⟨r.1, make_power_2 r.2.1, make_power_2 r.2.2⟩

/-- Sum of the image widths of a list of `(width, height)` pairs. -/
def sumWidths : List (Nat × Nat) → Nat
  | [] => 0
  | (w, _) :: rest => w + sumWidths rest

/-- Maximum image height of a list of `(width, height)` pairs. -/
def maxHeight : List (Nat × Nat) → Nat
  | [] => 0
  | (_, h) :: rest => max h (maxHeight rest)

/-- Exact rational value of the `f32` constant `core::f32::consts::PI`
used by `lib.rs` (bit pattern `0x40490FDB`). -/
def pi32 : ℚ := 13176795 / 4194304

/-- Uniform fraction computed by `rand_range` in `lib.rs` from the first three
fetched random bytes: `(b0 + b1·256 + b2·65536) / 16777216`.  The fourth byte
of the fetched array is never read by the source. -/
def randUniform (b : Nat × Nat × Nat) : ℚ :=
  ((b.1 : ℚ) + (b.2.1 : ℚ) * 256 + (b.2.2 : ℚ) * 65536) / 16777216

/-- `rand_range` from `lib.rs`: `min + (max - min) * v` with `v` the uniform
fraction built from three random bytes. -/
def rand_range (b : Nat × Nat × Nat) (min max : ℚ) : ℚ :=
  min + (max - min) * randUniform b

/-- The three bytes delivered by the crypto source are genuine bytes. -/
def bytesValid (b : Nat × Nat × Nat) : Prop :=
  b.1 < 256 ∧ b.2.1 < 256 ∧ b.2.2 < 256

instance (b : Nat × Nat × Nat) : Decidable (bytesValid b) := by
  unfold bytesValid; infer_instance

/-- Snowflake count of `create_scene` in `lib.rs`:
`(width as f32 * height as f32 * 0.0006) as usize`. -/
def snowflakesQuantity (width height : Nat) : Nat :=
  (⌊(width : ℚ) * (height : ℚ) * 0.0006⌋).toNat

/-- Sprite `i` built by the `create_scene` loop in `lib.rs`.  `images` lists the
`(width, height)` of the loaded bitmaps, `quantity` is the snowflake count and
`bytes` is the sequence of byte triples the crypto source delivers to the
successive `rand_range` calls (sprite `i` performs calls `4i .. 4i+3`).
The source indexes `images[tex_index]` directly (a panic when out of bounds);
the embedding uses `getD`, and the texture-index safety theorem shows the
default is never taken for a nonempty image list and valid bytes. -/
def createSprite (images : List (Nat × Nat)) (width height : Nat)
    (quantity : Nat) (bytes : Nat → Nat × Nat × Nat) (i : Nat) : Sprite ℚ :=
  let texIndex := (⌊rand_range (bytes (4 * i)) 0 (images.length : ℚ)⌋).toNat
  let image := images.getD texIndex (0, 0)
  let distance : ℚ := (i : ℚ) / (quantity : ℚ)
  let size : ℚ := 15 + distance * 80
  let spriteWidth := size
  let spriteHeight := size * (image.2 : ℚ) / (image.1 : ℚ)
  { texture := texIndex
    position := ⟨rand_range (bytes (4 * i + 1)) (-100) (100 + (width : ℚ)),
                 rand_range (bytes (4 * i + 2)) (-100) (100 + (height : ℚ))⟩
    pivot := ⟨spriteWidth * 0.5, spriteHeight * 0.5⟩
    rotation := rand_range (bytes (4 * i + 3)) 0 (2 * pi32)
    width := spriteWidth
    height := spriteHeight
    alpha := 0.25 + distance * 0.4 }

/-- Sprite list built by `create_scene` in `lib.rs` (loop over
`0..snowflakes_quantity`). -/
def createSceneSprites (images : List (Nat × Nat)) (width height : Nat)
    (bytes : Nat → Nat × Nat × Nat) : List (Sprite ℚ) :=
  (List.range (snowflakesQuantity width height)).map
    (createSprite images width height (snowflakesQuantity width height) bytes)

/-- The loading sprite built by `create_loading_scene` in `lib.rs` (over ℝ,
since the loading tick feeds it to `cos`). -/
noncomputable def loadingSprite (fullWidth fullHeight : ℝ) : Sprite ℝ :=
  { texture := 0
    position := ⟨fullWidth * 0.5, fullHeight * 0.33⟩
    pivot := ⟨270 * 0.5, 80 * 0.5⟩
    rotation := 0
    width := 270
    height := 80
    alpha := 1 }

/-- Per-tick sprite update of `render_loop_loading` in `lib.rs`: `time` is the
wall clock (`Date::now()`); alpha is recomputed from the clock while the
width/height/position deltas are added to the current values. -/
noncomputable def loadTick (time : ℝ) (s : Sprite ℝ) : Sprite ℝ :=
  let deltaX := 0.15 * Real.cos (time * 0.0065)
  let deltaY := deltaX * s.height / s.width
  { s with
    alpha := 0.85 + 0.15 * Real.cos (time * 0.03)
    width := s.width + deltaX * 2
    position := ⟨s.position.x - deltaX, s.position.y - deltaY⟩
    height := s.height + deltaY * 2 }

/-- Wind decay factor of `render_loop_snowflakes` in `lib.rs`:
`if delta_seconds > 1.0 { 0.0 } else { 1.0 - 0.5 * delta_seconds }`. -/
def windFactor (deltaSeconds : ℚ) : ℚ :=
  if deltaSeconds > 1 then 0 else 1 - 0.5 * deltaSeconds

/-- Raw pointer delta of `render_loop_snowflakes` in `lib.rs`: current pointer
position minus previous one, zero when no pointer is pressed. -/
def mouseDeltaOf (mousePos lastPos : Option (Point ℚ)) : Point ℚ :=
  match mousePos with
  | some p => p.sub (match lastPos with | some l => l | none => p)
  | none => ⟨0, 0⟩

/-- Wind update of `render_loop_snowflakes` in `lib.rs`: normalize the pointer
delta by the canvas dimensions, then
`wind = (wind + mouse_delta * 350 * delta_seconds) * wind_factor`. -/
def windStep (width height : ℚ) (wind : Point ℚ)
    (mousePos lastPos : Option (Point ℚ)) (deltaSeconds : ℚ) : Point ℚ :=
  let md := mouseDeltaOf mousePos lastPos
  let md : Point ℚ := ⟨md.x / width, md.y / height⟩
  (wind.add ((md.smul 350).smul deltaSeconds)).smul (windFactor deltaSeconds)

/-- Rotation speed bucket of `render_loop_snowflakes` in `lib.rs`, keyed by
`i % 5` (source: a five-armed `match i % 5`). -/
def rotationSpeed (i : Nat) : ℚ :=
  if i % 5 = 0 then -0.05
  else if i % 5 = 1 then -0.025
  else if i % 5 = 2 then 0
  else if i % 5 = 3 then 0.025
  else 0.05

/-- Upper screen-wrap correction of `render_loop_snowflakes` in `lib.rs`:
subtract `dim + 200` when the coordinate exceeds `dim + 100` (applied once). -/
def wrapHigh (dim x : ℚ) : ℚ :=
  if x > dim + 100 then x - (dim + 200) else x

/-- Lower screen-wrap correction of `render_loop_snowflakes` in `lib.rs`:
add `dim + 200` when the coordinate is below `-100` (applied once, after the
upper correction). -/
def wrapLow (dim x : ℚ) : ℚ :=
  if x < -100 then x + (dim + 200) else x

/-- Screen-wrap correction of `render_loop_snowflakes` in `lib.rs` for one
coordinate: the upper then the lower correction, each applied once. -/
def wrapCoord (dim x : ℚ) : ℚ :=
  wrapLow dim (wrapHigh dim x)

/-- Per-sprite body of the `render_loop_snowflakes` loop in `lib.rs`: advance
the position by the wind-driven velocity and wrap, then advance the rotation
by `delta_seconds * PI * rotation_speed` and subtract `2π` when the result
exceeds `2π`. -/
def snowSpriteTick (width height deltaSeconds : ℚ) (wind : Point ℚ)
    (i : Nat) (s : Sprite ℚ) : Sprite ℚ :=
  let px := wrapCoord width (s.position.x + deltaSeconds * (wind.x + 0.1) * s.width)
  let py := wrapCoord height (s.position.y + deltaSeconds * (wind.y * 0.5 + 0.33) * s.width)
  let r := s.rotation + deltaSeconds * pi32 * rotationSpeed i
  let r := if r > 2 * pi32 then r - 2 * pi32 else r
  { s with position := ⟨px, py⟩, rotation := r }

/-- Iterated snowflake ticks for sprite `i`: each list entry is the
`(deltaSeconds, wind)` pair of one tick. -/
def snowTicks (width height : ℚ) (i : Nat)
    (ticks : List (ℚ × Point ℚ)) (s : Sprite ℚ) : Sprite ℚ :=
  ticks.foldl (fun st t => snowSpriteTick width height t.1 t.2 i st) s

/-- The 20 floats (4 vertices × 5 floats) `update_buffers` in `renderer.rs`
emits for one sprite: screen position, texcoord normalized by the atlas
dimensions, and the sprite alpha.  The source reads `atlas.items[sprite.texture]`
(a panic when out of bounds); the embedding uses `getD`. -/
noncomputable def spriteVertices (atlas : TextureAtlas) (s : Sprite ℝ) : List ℝ :=
  let tex := atlas.items.getD s.texture ⟨0, 0, 0, 0⟩
  let aw : ℝ := (atlas.width : ℝ)
  let ah : ℝ := (atlas.height : ℝ)
  let p := s.position.sub (s.pivot.rotate s.rotation)
  let wr := Point.rotate ⟨s.width, 0⟩ s.rotation
  let hr := Point.rotate ⟨0, s.height⟩ s.rotation
  [p.x, p.y, (tex.x : ℝ) / aw, (tex.y : ℝ) / ah, s.alpha,
   p.x + wr.x, p.y + wr.y, ((tex.x + tex.width : Nat) : ℝ) / aw, (tex.y : ℝ) / ah, s.alpha,
   p.x + wr.x + hr.x, p.y + wr.y + hr.y, ((tex.x + tex.width : Nat) : ℝ) / aw,
     ((tex.y + tex.height : Nat) : ℝ) / ah, s.alpha,
   p.x + hr.x, p.y + hr.y, (tex.x : ℝ) / aw, ((tex.y + tex.height : Nat) : ℝ) / ah, s.alpha]

/-- The 6 indices `update_buffers` in `renderer.rs` emits for sprite `i`:
`let n = i as u16 * 4` truncates/wraps in 16-bit arithmetic, so
`n = 4·i mod 65536` (`n` is a multiple of 4 below 65536, hence
`n+1 .. n+3` do not wrap further). -/
def spriteIndicesU16 (i : Nat) : List Nat :=
  let n := i % 65536 * 4 % 65536
  [n, n + 1, n + 2, n, n + 2, n + 3]

/-- Loop of `update_buffers` in `renderer.rs` over the enumerated sprite list
(`i` is the enumeration counter): concatenates each sprite's 20 vertex floats
and 6 indices in list order. -/
noncomputable def updateBuffersGo (atlas : TextureAtlas) :
    Nat → List (Sprite ℝ) → List ℝ × List Nat
  | _, [] => ([], [])
  | i, s :: rest =>
    let r := updateBuffersGo atlas (i + 1) rest
    (spriteVertices atlas s ++ r.1, spriteIndicesU16 i ++ r.2)

/-- Pure core of `update_buffers` in `renderer.rs`: the vertex-float and index
buffers uploaded for a sprite list. -/
noncomputable def update_buffers (sprites : List (Sprite ℝ)) (atlas : TextureAtlas) :
    List ℝ × List Nat :=
  updateBuffersGo atlas 0 sprites

theorem rotationSpeed_abs (i : Nat) :
    -0.05 ≤ rotationSpeed i ∧ rotationSpeed i ≤ 0.05 := by
  unfold rotationSpeed
  split_ifs <;> norm_num

theorem pi32_pos : 0 < pi32 := by norm_num [pi32]

theorem snowTick_rotation_le (width height d : ℚ) (wind : Point ℚ) (i : Nat)
    (s : Sprite ℚ) (hd0 : 0 ≤ d) (hd : d ≤ 40) (hr : s.rotation ≤ 2 * pi32) :
    (snowSpriteTick width height d wind i s).rotation ≤ 2 * pi32 := by
  have hb := rotationSpeed_abs i
  have h1 : d * rotationSpeed i ≤ 2 := by nlinarith [hb.2]
  have hinc : d * pi32 * rotationSpeed i ≤ 2 * pi32 := by
    have h2 : pi32 * (d * rotationSpeed i) ≤ pi32 * 2 :=
      mul_le_mul_of_nonneg_left h1 (le_of_lt pi32_pos)
    nlinarith [h2]
  simp only [snowSpriteTick]
  split_ifs with h <;> linarith

/-- C1 (amended): after any number of Snowflakes ticks whose `deltaSeconds`
each lie in `[0, 40]`, a sprite's rotation never exceeds `2π` — the tick adds
`deltaSeconds × π × rotationSpeed` (buckets keyed by `index mod 5`) and
subtracts `2π` whenever the result exceeds `2π`.  The lower bound `0 ≤ rotation`
of the original claim does not hold: there is no upward wrap, so negative
rotation speeds drive the rotation below zero. -/
theorem snowflake_rotation_never_exceeds_two_pi (width height : ℚ) (i : Nat)
    (s : Sprite ℚ) (ticks : List (ℚ × Point ℚ))
    (hs : s.rotation ≤ 2 * pi32)
    (hticks : ∀ t ∈ ticks, 0 ≤ t.1 ∧ t.1 ≤ 40) :
    (snowTicks width height i ticks s).rotation ≤ 2 * pi32 := by
  induction ticks generalizing s with
  | nil => exact hs
  | cons t rest ih =>
    simp only [snowTicks, List.foldl_cons] at *
    refine ih _ ?_ fun t' ht' => hticks t' (List.mem_cons_of_mem _ ht')
    have ht := hticks t (List.mem_cons_self _ _)
    exact snowTick_rotation_le width height t.1 t.2 i s ht.1 ht.2 hs

/-- Witness for C1 at a concrete input: one tick of one second on a sprite of
index 0 starting at rotation 0. -/
theorem snowflake_rotation_never_exceeds_two_pi_witness :
    ((0 : ℚ) ≤ 2 * pi32) ∧
    (snowTicks 800 600 0 [(1, ⟨0, 0⟩)]
      { texture := 0, position := ⟨0, 0⟩, pivot := ⟨5, 5⟩, rotation := 0,
        width := 10, height := 10, alpha := 1 }).rotation ≤ 2 * pi32 := by
  constructor
  · norm_num [pi32]
  · exact snowflake_rotation_never_exceeds_two_pi 800 600 0 _ _
      (by norm_num [pi32]) (by intro t ht; simp at ht; simp [ht])

/-- Counterexample to C1 as stated: an index-0 sprite (rotation speed `-0.05`)
starting at rotation 0 has, after a single one-second tick, a strictly negative
rotation — outside `[0, 2π)`. -/
theorem snowflake_rotation_can_go_negative :
    (snowTicks 800 600 0 [(1, ⟨0, 0⟩)]
      { texture := 0, position := ⟨0, 0⟩, pivot := ⟨5, 5⟩, rotation := 0,
        width := 10, height := 10, alpha := 1 }).rotation < 0 := by
  norm_num [snowTicks, snowSpriteTick, rotationSpeed, pi32]

theorem wrapCoord_bounds (dim x inc : ℚ) (hx0 : -100 ≤ x) (hx1 : x ≤ dim + 100)
    (hi0 : -(dim + 200) ≤ inc) (hi1 : inc ≤ dim + 200) :
    -100 ≤ wrapCoord dim (x + inc) ∧ wrapCoord dim (x + inc) ≤ dim + 100 := by
  unfold wrapCoord wrapLow wrapHigh
  split_ifs <;> constructor <;> linarith

/-- C2 (amended): in a Snowflakes tick whose per-axis displacement
`deltaSeconds × velocity × sprite.width` has magnitude at most
`dimension + 200`, a sprite starting inside the wrap band
`[-100, dimension + 100]` on each axis stays inside it after the wrap
correction of that same tick.  The original "regardless of deltaSeconds and
accumulated wind" fails: the correction is applied once, not iterated, so a
displacement beyond `dimension + 200` overshoots the band. -/
theorem snowflake_position_wrapped_bounds (width height d : ℚ) (wind : Point ℚ)
    (i : Nat) (s : Sprite ℚ)
    (hx0 : -100 ≤ s.position.x) (hx1 : s.position.x ≤ width + 100)
    (hy0 : -100 ≤ s.position.y) (hy1 : s.position.y ≤ height + 100)
    (hmx0 : -(width + 200) ≤ d * (wind.x + 0.1) * s.width)
    (hmx1 : d * (wind.x + 0.1) * s.width ≤ width + 200)
    (hmy0 : -(height + 200) ≤ d * (wind.y * 0.5 + 0.33) * s.width)
    (hmy1 : d * (wind.y * 0.5 + 0.33) * s.width ≤ height + 200) :
    -100 ≤ (snowSpriteTick width height d wind i s).position.x ∧
    (snowSpriteTick width height d wind i s).position.x ≤ width + 100 ∧
    -100 ≤ (snowSpriteTick width height d wind i s).position.y ∧
    (snowSpriteTick width height d wind i s).position.y ≤ height + 100 := by
  have hx := wrapCoord_bounds width s.position.x _ hx0 hx1 hmx0 hmx1
  have hy := wrapCoord_bounds height s.position.y _ hy0 hy1 hmy0 hmy1
  simp only [snowSpriteTick]
  exact ⟨hx.1, hx.2, hy.1, hy.2⟩

/-- Witness for C2 at a concrete input: an ordinary one-second tick with no
wind on an 800×600 canvas. -/
theorem snowflake_position_wrapped_bounds_witness :
    ((-100 : ℚ) ≤ 0 ∧ (0 : ℚ) ≤ 800 + 100 ∧
     (1 : ℚ) * (0 + 0.1) * 10 ≤ 800 + 200) ∧
    -100 ≤ (snowSpriteTick 800 600 1 ⟨0, 0⟩ 0
      { texture := 0, position := ⟨0, 0⟩, pivot := ⟨5, 5⟩, rotation := 0,
        width := 10, height := 10, alpha := 1 }).position.x := by
  refine ⟨⟨by norm_num, by norm_num, by norm_num⟩, ?_⟩
  exact (snowflake_position_wrapped_bounds 800 600 1 ⟨0, 0⟩ 0 _
    (by norm_num) (by norm_num) (by norm_num) (by norm_num)
    (by norm_num) (by norm_num) (by norm_num) (by norm_num)).1

/-- Counterexample to C2 as stated: with `deltaSeconds = 100` and wind `x = 10`,
a width-10 sprite at `x = 0` on an 800-wide canvas moves by `10100`; the single
wrap correction subtracts only `1000`, leaving `x = 9100 > 800 + 100`. -/
theorem snowflake_position_escapes_bounds :
    (snowSpriteTick 800 600 100 ⟨10, 0⟩ 0
      { texture := 0, position := ⟨0, 0⟩, pivot := ⟨5, 5⟩, rotation := 0,
        width := 10, height := 10, alpha := 1 }).position.x > 800 + 100 := by
  norm_num [snowSpriteTick, wrapCoord, wrapHigh, wrapLow, rotationSpeed, pi32]

/-- C3 (confirmed): with zero pointer input, one Snowflakes tick of length `t`
multiplies the wind by `1 - 0.5·t` when `t ≤ 1`; zero wind stays exactly zero;
and when `t > 1` the decay factor is `0`, so the wind becomes zero. -/
theorem wind_decay_spec (width height : ℚ) (w : Point ℚ)
    (lastPos : Option (Point ℚ)) (t : ℚ) :
    (t ≤ 1 → windStep width height w none lastPos t = w.smul (1 - 0.5 * t)) ∧
    windStep width height ⟨0, 0⟩ none lastPos t = ⟨0, 0⟩ ∧
    (1 < t → windStep width height w none lastPos t = ⟨0, 0⟩) := by
  refine ⟨fun h => ?_, ?_, fun h => ?_⟩
  · have hf : windFactor t = 1 - 0.5 * t := by rw [windFactor, if_neg (not_lt.mpr h)]
    simp [windStep, mouseDeltaOf, Point.add, Point.smul, hf]
  · rcases le_or_lt t 1 with h | h
    · have hf : windFactor t = 1 - 0.5 * t := by rw [windFactor, if_neg (not_lt.mpr h)]
      simp [windStep, mouseDeltaOf, Point.add, Point.smul, hf]
    · have hf : windFactor t = 0 := by rw [windFactor, if_pos h]
      simp [windStep, mouseDeltaOf, Point.add, Point.smul, hf]
  · have hf : windFactor t = 0 := by rw [windFactor, if_pos h]
    simp [windStep, mouseDeltaOf, Point.add, Point.smul, hf]

/-- Witness for C3 at a concrete input: a half-second tick decays the wind
`(3, 4)` by the factor `1 - 0.5 × 0.5`, and a tick of length `2` zeroes it. -/
theorem wind_decay_spec_witness :
    ((0.5 : ℚ) ≤ 1 ∧
      windStep 800 600 ⟨3, 4⟩ none none 0.5 = Point.smul ⟨3, 4⟩ (1 - 0.5 * 0.5)) ∧
    ((1 : ℚ) < 2 ∧ windStep 800 600 ⟨3, 4⟩ none none 2 = ⟨0, 0⟩) := by
  refine ⟨⟨by norm_num, ?_⟩, ⟨by norm_num, ?_⟩⟩
  · exact (wind_decay_spec 800 600 ⟨3, 4⟩ none 0.5).1 (by norm_num)
  · exact (wind_decay_spec 800 600 ⟨3, 4⟩ none 2).2.2 (by norm_num)

/-- C4 (amended): each Loading tick recomputes `alpha` statelessly from the
clock (`0.85 + 0.15·cos(0.03·t)`), but the clock-derived width/height/position
offsets are added to the previous frame's values, so scale and position carry
accumulated state across frames; each per-tick width offset is a bounded
periodic function of the clock (magnitude at most `0.3`). -/
theorem loading_pulse_accumulates (t : ℝ) (s : Sprite ℝ) :
    (loadTick t s).alpha = 0.85 + 0.15 * Real.cos (t * 0.03) ∧
    (loadTick t s).width = s.width + 0.15 * Real.cos (t * 0.0065) * 2 ∧
    (loadTick t s).position.x = s.position.x - 0.15 * Real.cos (t * 0.0065) ∧
    s.width - 0.3 ≤ (loadTick t s).width ∧ (loadTick t s).width ≤ s.width + 0.3 := by
  have hc1 := Real.cos_le_one (t * 0.0065)
  have hc2 := Real.neg_one_le_cos (t * 0.0065)
  simp only [loadTick]
  refine ⟨trivial, trivial, trivial, by linarith, by linarith⟩

/-- Counterexample to C4 as stated: two successive ticks at the same clock
reading `t = 0` yield different widths (270.6 after the second versus 270.3
after the first), so the sprite's width after a tick is not a function of that
tick's clock reading and the construction-time values alone. -/
theorem loading_pulse_not_stateless :
    (loadTick 0 (loadTick 0 (loadingSprite 800 600))).width ≠
    (loadTick 0 (loadingSprite 800 600)).width := by
  simp only [loadTick, loadingSprite, zero_mul, Real.cos_zero]
  norm_num

theorem packGo_items_length (l : List (Nat × Nat)) :
    ∀ tw th, (packGo l tw th).1.length = l.length := by
  induction l with
  | nil => intro tw th; rfl
  | cons p rest ih =>
    intro tw th
    obtain ⟨w, h⟩ := p
    simp only [packGo, List.length_cons, ih]

theorem packGo_getD (l : List (Nat × Nat)) :
    ∀ tw th i, i < l.length →
      (packGo l tw th).1.getD i ⟨0, 0, 0, 0⟩ =
        ⟨tw + sumWidths (l.take i), 0, (l.getD i (0, 0)).1, (l.getD i (0, 0)).2⟩ := by
  induction l with
  | nil => intro tw th i hi; simp at hi
  | cons p rest ih =>
    intro tw th i hi
    obtain ⟨w, h⟩ := p
    match i with
    | 0 => simp [packGo, sumWidths]
    | j + 1 =>
      have hj : j < rest.length := by simpa using hi
      simp only [packGo, List.getD_cons_succ, List.take_succ_cons, sumWidths,
        ih _ _ j hj]
      congr 1
      omega

theorem packGo_totalWidth (l : List (Nat × Nat)) :
    ∀ tw th, (packGo l tw th).2.1 = tw + sumWidths l := by
  induction l with
  | nil => intro tw th; simp [packGo, sumWidths]
  | cons p rest ih =>
    intro tw th
    obtain ⟨w, h⟩ := p
    simp only [packGo, sumWidths, ih]
    omega

theorem packGo_totalHeight (l : List (Nat × Nat)) :
    ∀ tw th, th ≤ (packGo l tw th).2.2 ∧ maxHeight l ≤ (packGo l tw th).2.2 := by
  induction l with
  | nil => intro tw th; simp [packGo, maxHeight]
  | cons p rest ih =>
    intro tw th
    obtain ⟨w, h⟩ := p
    simp only [packGo, maxHeight]
    have hth : th ≤ if th < h then h else th := by split <;> omega
    have hh : h ≤ if th < h then h else th := by split <;> omega
    obtain ⟨ih1, ih2⟩ := ih (tw + w) (if th < h then h else th)
    exact ⟨le_trans hth ih1, max_le (le_trans hh ih1) ih2⟩

theorem makePower2Go_pow (f : Nat) :
    ∀ v p, (∃ k, p = 2 ^ k) → ∃ k, makePower2Go f v p = 2 ^ k := by
  induction f with
  | zero => intro v p hp; exact hp
  | succ g ih =>
    intro v p hp
    simp only [makePower2Go]
    split
    · obtain ⟨k, hk⟩ := hp
      exact ih v (2 * p) ⟨k + 1, by rw [hk, pow_succ]; ring⟩
    · exact hp

theorem makePower2Go_ge (f : Nat) :
    ∀ v p, v ≤ 2 ^ f * p → v ≤ makePower2Go f v p := by
  induction f with
  | zero => intro v p hp; simpa [makePower2Go] using hp
  | succ g ih =>
    intro v p hp
    simp only [makePower2Go]
    split_ifs with hlt
    · refine ih v (2 * p) ?_
      calc v ≤ 2 ^ (g + 1) * p := hp
      _ = 2 ^ g * (2 * p) := by rw [pow_succ]; ring
    · omega

theorem make_power_2_ge (v : Nat) : v ≤ make_power_2 v :=
  makePower2Go_ge v v 1 (by simpa using le_of_lt (Nat.lt_two_pow v))

theorem make_power_2_pow (v : Nat) : ∃ k, make_power_2 v = 2 ^ k :=
  makePower2Go_pow v v 1 ⟨0, rfl⟩

/-- C5 (confirmed): atlas packing places image `i` (in input order) at
`x = Σ w₀..wᵢ₋₁`, `y = 0` with the image's own dimensions; the atlas width is
at least the sum of the widths, the atlas height at least the maximum height,
and both dimensions are exact powers of two. -/
theorem atlas_packing_spec (images : List (Nat × Nat)) :
    (∀ i, i < images.length →
      (create_texture_with_images images).items.getD i ⟨0, 0, 0, 0⟩ =
        ⟨sumWidths (images.take i), 0,
         (images.getD i (0, 0)).1, (images.getD i (0, 0)).2⟩) ∧
    sumWidths images ≤ (create_texture_with_images images).width ∧
    maxHeight images ≤ (create_texture_with_images images).height ∧
    (∃ k, (create_texture_with_images images).width = 2 ^ k) ∧
    (∃ k, (create_texture_with_images images).height = 2 ^ k) := by
  refine ⟨fun i hi => ?_, ?_, ?_, ?_, ?_⟩
  · simpa [create_texture_with_images] using packGo_getD images 0 0 i hi
  · have h := packGo_totalWidth images 0 0
    simp only [create_texture_with_images]
    calc sumWidths images = (packGo images 0 0).2.1 := by omega
    _ ≤ make_power_2 (packGo images 0 0).2.1 := make_power_2_ge _
  · have h := (packGo_totalHeight images 0 0).2
    simp only [create_texture_with_images]
    exact le_trans h (make_power_2_ge _)
  · exact make_power_2_pow _
  · exact make_power_2_pow _

/-- Witness for C5 at a concrete input: packing a 64×64 then a 32×16 image
places the second at `x = 64`, `y = 0`. -/
theorem atlas_packing_spec_witness :
    1 < [(64, 64), (32, 16)].length ∧
    (create_texture_with_images [(64, 64), (32, 16)]).items.getD 1 ⟨0, 0, 0, 0⟩ =
      ⟨sumWidths ([(64, 64), (32, 16)].take 1), 0,
       ([(64, 64), (32, 16)].getD 1 (0, 0)).1,
       ([(64, 64), (32, 16)].getD 1 (0, 0)).2⟩ :=
  ⟨by decide, (atlas_packing_spec [(64, 64), (32, 16)]).1 1 (by decide)⟩

/-- C8 (confirmed): on entry to the Snowflakes stage the controller builds
exactly `⌊canvasWidth × canvasHeight × 0.0006⌋` sprites; an 800×600 canvas
yields 288 sprites, and six 64×64 images pack to a 512×64 atlas. -/
theorem scene_population_spec (images : List (Nat × Nat)) (width height : Nat)
    (bytes : Nat → Nat × Nat × Nat) :
    (createSceneSprites images width height bytes).length =
      (⌊(width : ℚ) * (height : ℚ) * 0.0006⌋).toNat ∧
    snowflakesQuantity 800 600 = 288 ∧
    (create_texture_with_images (List.replicate 6 (64, 64))).width = 512 ∧
    (create_texture_with_images (List.replicate 6 (64, 64))).height = 64 := by
  refine ⟨?_, ?_, by decide, by decide⟩
  · simp [createSceneSprites, snowflakesQuantity]
  · have h : (800 : ℚ) * (600 : ℚ) * 0.0006 = 288 := by norm_num
    simp [snowflakesQuantity, h]

theorem randUniform_nonneg (b : Nat × Nat × Nat) : 0 ≤ randUniform b := by
  unfold randUniform
  positivity

theorem randUniform_lt_one (b : Nat × Nat × Nat) (hb : bytesValid b) :
    randUniform b < 1 := by
  obtain ⟨h1, h2, h3⟩ := hb
  unfold randUniform
  rw [div_lt_one (by norm_num)]
  have c1 : (b.1 : ℚ) ≤ 255 := by exact_mod_cast Nat.lt_succ_iff.mp h1
  have c2 : (b.2.1 : ℚ) ≤ 255 := by exact_mod_cast Nat.lt_succ_iff.mp h2
  have c3 : (b.2.2 : ℚ) ≤ 255 := by exact_mod_cast Nat.lt_succ_iff.mp h3
  linarith

theorem rand_range_mem (b : Nat × Nat × Nat) (hb : bytesValid b)
    (mn mx : ℚ) (h : mn < mx) :
    mn ≤ rand_range b mn mx ∧ rand_range b mn mx < mx := by
  have h0 := randUniform_nonneg b
  have h1 := randUniform_lt_one b hb
  unfold rand_range
  constructor
  · nlinarith
  · nlinarith

theorem randIndex_lt (b : Nat × Nat × Nat) (hb : bytesValid b) (count : Nat)
    (hc : 0 < count) : (⌊rand_range b 0 (count : ℚ)⌋).toNat < count := by
  have h := (rand_range_mem b hb 0 count (by exact_mod_cast hc)).2
  have hf : ⌊rand_range b 0 (count : ℚ)⌋ < (count : ℤ) := by
    rw [Int.floor_lt]
    exact_mod_cast h
  exact (Int.toNat_lt' (Nat.pos_iff_ne_zero.mp hc)).mpr hf

/-- C7 (confirmed): every sprite the controller ever hands to the renderer has
`textureIndex` strictly below the atlas rect count — snowflake sprites because
`rand_range(0, imageCount)` truncates below the (nonempty) image count and the
atlas packs one rect per image, the loading sprite because its index is 0 and
its atlas packs exactly one canvas.  Hence `atlas.items[sprite.texture]` is
always in bounds. -/
theorem texture_index_safety (images : List (Nat × Nat)) (width height : Nat)
    (bytes : Nat → Nat × Nat × Nat)
    (hb : ∀ n, bytesValid (bytes n)) (hne : images ≠ []) :
    (∀ s ∈ createSceneSprites images width height bytes,
        s.texture < (create_texture_with_images images).items.length) ∧
    (∀ fw fh : ℝ, (loadingSprite fw fh).texture <
        (create_texture_with_images [(270, 80)]).items.length) := by
  constructor
  · intro s hs
    have hitems : (create_texture_with_images images).items.length = images.length := by
      simp only [create_texture_with_images]
      exact packGo_items_length images 0 0
    rw [hitems]
    simp only [createSceneSprites, List.mem_map, List.mem_range] at hs
    obtain ⟨i, hi, rfl⟩ := hs
    have hlen : 0 < images.length := List.length_pos.mpr hne
    simpa [createSprite] using randIndex_lt (bytes (4 * i)) (hb _) images.length hlen
  · intro fw fh
    simp [loadingSprite, create_texture_with_images, packGo]

/-- Witness for C7 at a concrete input: a single 64×64 image on a 100×100
canvas with an all-zero byte source. -/
theorem texture_index_safety_witness :
    (bytesValid (0, 0, 0) ∧ ([(64, 64)] : List (Nat × Nat)) ≠ []) ∧
    (∀ s ∈ createSceneSprites [(64, 64)] 100 100 (fun _ => (0, 0, 0)),
        s.texture < (create_texture_with_images [(64, 64)]).items.length) :=
  ⟨⟨by decide, by simp⟩,
    (texture_index_safety [(64, 64)] 100 100 (fun _ => (0, 0, 0))
      (by intro n; show bytesValid (0, 0, 0); decide) (by simp)).1⟩

/-- C10 (confirmed): for valid random bytes, the three bytes used by
`rand_range` form a numerator of at most 16777215 over 16777216, so the uniform
fraction lies in `[0, 1)`, `rand_range` maps into the half-open interval
`[min, max)` whenever `min < max`, texture indices drawn as
`rand_range(0, count)` truncate to valid indices, and initial rotations drawn
as `rand_range(0, 2π)` lie in `[0, 2π)`. -/
theorem rand_range_uniform_bounds (b : Nat × Nat × Nat) (hb : bytesValid b) :
    b.1 + b.2.1 * 256 + b.2.2 * 65536 ≤ 16777215 ∧
    (0 ≤ randUniform b ∧ randUniform b < 1) ∧
    (∀ mn mx : ℚ, mn < mx → mn ≤ rand_range b mn mx ∧ rand_range b mn mx < mx) ∧
    (∀ count : Nat, 0 < count → (⌊rand_range b 0 (count : ℚ)⌋).toNat < count) ∧
    (0 ≤ rand_range b 0 (2 * pi32) ∧ rand_range b 0 (2 * pi32) < 2 * pi32) := by
  obtain ⟨h1, h2, h3⟩ := hb
  exact ⟨by omega, ⟨randUniform_nonneg b, randUniform_lt_one b ⟨h1, h2, h3⟩⟩,
    fun mn mx h => rand_range_mem b ⟨h1, h2, h3⟩ mn mx h,
    fun count hc => randIndex_lt b ⟨h1, h2, h3⟩ count hc,
    rand_range_mem b ⟨h1, h2, h3⟩ 0 (2 * pi32) (by norm_num [pi32])⟩

/-- Witness for C10 at a concrete input: the all-ones byte triple. -/
theorem rand_range_uniform_bounds_witness :
    bytesValid (255, 255, 255) ∧
    (0 ≤ randUniform (255, 255, 255) ∧ randUniform (255, 255, 255) < 1) :=
  ⟨by decide, (rand_range_uniform_bounds (255, 255, 255) (by decide)).2.1⟩

theorem spriteVertices_length (atlas : TextureAtlas) (s : Sprite ℝ) :
    (spriteVertices atlas s).length = 20 := by
  simp [spriteVertices]

theorem spriteIndicesU16_length (i : Nat) : (spriteIndicesU16 i).length = 6 := by
  simp [spriteIndicesU16]

theorem spriteIndicesU16_eq (i : Nat) :
    spriteIndicesU16 i = [4 * i % 65536, 4 * i % 65536 + 1, 4 * i % 65536 + 2,
      4 * i % 65536, 4 * i % 65536 + 2, 4 * i % 65536 + 3] := by
  unfold spriteIndicesU16
  have h : i % 65536 * 4 % 65536 = 4 * i % 65536 := by omega
  rw [h]

theorem updateBuffersGo_fst_length (atlas : TextureAtlas) (l : List (Sprite ℝ)) :
    ∀ i, (updateBuffersGo atlas i l).1.length = 20 * l.length := by
  induction l with
  | nil => intro i; simp [updateBuffersGo]
  | cons s rest ih =>
    intro i
    simp only [updateBuffersGo, List.length_append, spriteVertices_length, ih,
      List.length_cons]
    ring

theorem updateBuffersGo_snd_length (atlas : TextureAtlas) (l : List (Sprite ℝ)) :
    ∀ i, (updateBuffersGo atlas i l).2.length = 6 * l.length := by
  induction l with
  | nil => intro i; simp [updateBuffersGo]
  | cons s rest ih =>
    intro i
    simp only [updateBuffersGo, List.length_append, spriteIndicesU16_length, ih,
      List.length_cons]
    ring

theorem updateBuffersGo_block (atlas : TextureAtlas) (l : List (Sprite ℝ)) :
    ∀ i j, j < l.length →
      ((updateBuffersGo atlas i l).2.drop (6 * j)).take 6 = spriteIndicesU16 (i + j) := by
  induction l with
  | nil => intro i j hj; simp at hj
  | cons s rest ih =>
    intro i j hj
    match j with
    | 0 =>
      simp only [updateBuffersGo, Nat.mul_zero, List.drop_zero, Nat.add_zero]
      exact List.take_left' (spriteIndicesU16_length i)
    | k + 1 =>
      have hk : k < rest.length := by simpa using hj
      have h6 : 6 * (k + 1) = 6 + 6 * k := by ring
      simp only [updateBuffersGo]
      rw [h6, ← List.drop_drop, List.drop_left' (spriteIndicesU16_length i),
        ih (i + 1) k hk]
      congr 1
      omega

/-- C6 (amended): for every sprite list, `update_buffers` emits per sprite
exactly 4 vertices of 5 floats each and 6 indices, so the buffers hold
`sprites.length × 20` floats and `sprites.length × 6` indices; the indices of
sprite `i` are `{4i, 4i+1, 4i+2, 4i, 4i+2, 4i+3}` computed in 16-bit
arithmetic, i.e. reduced modulo 65536 (`let n = i as u16 * 4`), which coincides
with the unreduced values exactly when `4·i < 65536`. -/
theorem render_buffers_layout (sprites : List (Sprite ℝ)) (atlas : TextureAtlas) :
    (update_buffers sprites atlas).1.length = 20 * sprites.length ∧
    (update_buffers sprites atlas).2.length = 6 * sprites.length ∧
    (∀ j, j < sprites.length →
      ((update_buffers sprites atlas).2.drop (6 * j)).take 6 =
        [4 * j % 65536, 4 * j % 65536 + 1, 4 * j % 65536 + 2,
         4 * j % 65536, 4 * j % 65536 + 2, 4 * j % 65536 + 3]) := by
  refine ⟨updateBuffersGo_fst_length atlas sprites 0,
          updateBuffersGo_snd_length atlas sprites 0, fun j hj => ?_⟩
  rw [update_buffers, updateBuffersGo_block atlas sprites 0 j hj]
  simpa using spriteIndicesU16_eq j

/-- Concrete sprite used to exercise the renderer buffer layout. -/
noncomputable def probeSprite : Sprite ℝ :=
  { texture := 0, position := ⟨0, 0⟩, pivot := ⟨0, 0⟩, rotation := 0,
    width := 1, height := 1, alpha := 1 }

/-- Concrete one-rect atlas used to exercise the renderer buffer layout. -/
def probeAtlas : TextureAtlas := ⟨[⟨0, 0, 64, 64⟩], 64, 64⟩

/-- Witness for C6 at a concrete input: a single-sprite list. -/
theorem render_buffers_layout_witness :
    0 < ([probeSprite] : List (Sprite ℝ)).length ∧
    ((update_buffers [probeSprite] probeAtlas).2.drop (6 * 0)).take 6 =
      [4 * 0 % 65536, 4 * 0 % 65536 + 1, 4 * 0 % 65536 + 2,
       4 * 0 % 65536, 4 * 0 % 65536 + 2, 4 * 0 % 65536 + 3] :=
  ⟨by simp, (render_buffers_layout [probeSprite] probeAtlas).2.2 0 (by simp)⟩

/-- Counterexample to C6 as stated: in a 16385-sprite list, the indices of
sprite 16384 are `{0, 1, 2, 0, 2, 3}` (u16 wrap-around of `4 × 16384 = 65536`),
not `{65536, ...}` as the unreduced formula claims. -/
theorem render_buffers_index_wrap :
    ((update_buffers (List.replicate 16385 probeSprite) probeAtlas).2.drop
        (6 * 16384)).take 6 = [0, 1, 2, 0, 2, 3] ∧
    (0 : Nat) ≠ 4 * 16384 := by
  constructor
  · rw [update_buffers,
      updateBuffersGo_block probeAtlas _ 0 16384
        (by rw [List.length_replicate]; omega)]
    norm_num [spriteIndicesU16]
  · decide

/-- C9 (confirmed): `Point::rotate` is an isometry (exactly, in the idealised
real model), fixes every vector at angle `0`, and is additive in the angle. -/
theorem rotate_isometry_identity_additivity (v : Point ℝ) (a b : ℝ) :
    (v.rotate a).magnitude = v.magnitude ∧
    v.rotate 0 = v ∧
    (v.rotate a).rotate b = v.rotate (a + b) := by
  obtain ⟨x, y⟩ := v
  refine ⟨?_, ?_, ?_⟩
  · unfold Point.magnitude Point.rotate
    congr 1
    linear_combination (x ^ 2 + y ^ 2) * Real.sin_sq_add_cos_sq a
  · simp [Point.rotate]
  · simp only [Point.rotate, Real.cos_add, Real.sin_add, Point.mk.injEq]
    constructor <;> ring

end Kosygin
